import Mathlib

/-!
A verification development for the Iris backend TaskController (the ReAct
agent loop in src/services/TaskController.js) and its wiring in
src/server.js.

The JavaScript is shallowly embedded: external collaborators (the LLM
reasoner, the action channels, the screenshot service, the confirmation
socket) are modelled as oracles bundled in an `Env`; the loop itself is a
pure interpreter producing the final task record, the sequence of
`taskState.state` assignments, and the sequence of socket emissions.
Wall-clock data (timestamps, durations, the task id built from Date.now())
is not modelled; event payload fields derived from it are dropped.
-/

set_option maxRecDepth 4000

namespace IrisModel

/-- Task execution states, from the `TaskState` object
(TaskController.js lines 14-22). -/
inductive TaskState where
  | pending
  | reasoning
  | acting
  | observing
  | awaitingConfirmation
  | completed
  | failed
deriving DecidableEq, Repr

/-- The slice of `action.params` that the gated loop reads:
`action.params.command` (used by `requiresConfirmation`).  Other
channel-specific parameters are consumed only inside the `act` oracle. -/
structure Params where
  command : Option String := none
deriving DecidableEq, Repr

/-- An action as consumed by the loop: `type`, `description`, `params`,
`isFinal` (the shape produced by `parseActionFromResponse`). -/
structure Action where
  type : String
  description : String := ""
  params : Params := {}
  isFinal : Bool := false
deriving DecidableEq, Repr

/-- The deny-list `DANGEROUS_OPERATIONS` (TaskController.js lines 35-40). -/
def DANGEROUS_OPERATIONS : List String :=
  ["shutdown", "restart", "hibernate", "sleep",
   "delete", "remove", "rm", "del",
   "format", "reg delete", "regedit",
   "netsh", "firewall"]

/-- `pat` is a prefix of the second list (JS `String.startsWith` on the
character level). -/
def listStartsWith : List Char → List Char → Bool
  | [], _ => true
  | _ :: _, [] => false
  | p :: ps, c :: cs => p == c && listStartsWith ps cs

/-- `pat` occurs as a contiguous substring (JS `String.includes` on the
character level). -/
def listHasSubstr (pat : List Char) : List Char → Bool
  | [] => listStartsWith pat []
  | c :: cs => listStartsWith pat (c :: cs) || listHasSubstr pat cs

/-- Character-wise lower-casing, modelling JS `toLowerCase` (all strings
in this development are ASCII). -/
def lowerChars (l : List Char) : List Char := l.map Char.toLower

/-- `requiresConfirmation` (TaskController.js lines 492-498): a `system`
action whose lower-cased command contains a deny-list term. -/
def requiresConfirmation (action : Action) : Bool :=
  if action.type == "system" then
    let cmd := lowerChars (action.params.command.getD "").toList
    DANGEROUS_OPERATIONS.any fun op => listHasSubstr op.toList cmd
  else
    false

/-! ## JSON layer

`parseActionFromResponse` (lines 345-372) scrapes the reply text with the
regex `\x7b[\s\S]*\x7d` and feeds the match to `JSON.parse`.  We model the
JSON values and a standard recursive-descent parser for the grammar the
reasoner replies use (string escapes and fractional numbers are not used
by any input in this development and are rejected by the model). -/

inductive Json where
  | null
  | bool (b : Bool)
  | num (n : Int)
  | str (s : String)
  | arr (elems : List Json)
  | obj (fields : List (String × Json))

def isJsonWs (c : Char) : Bool :=
  c == ' ' || c == '\t' || c == '\n' || c == '\r'

def skipWs (cs : List Char) : List Char := cs.dropWhile isJsonWs

def isDigitCh (c : Char) : Bool := '0' ≤ c && c ≤ '9'

/-- Parse the body of a JSON string after the opening quote. -/
def parseStringBody (cs : List Char) : Option (String × List Char) :=
  match cs.span (fun c => c != '"' && c != '\\') with
  | (body, '"' :: rest) => some (String.mk body, rest)
  | _ => none

/-- Parse a run of decimal digits. -/
def parseNatBody (cs : List Char) : Option (Nat × List Char) :=
  let digits := cs.takeWhile isDigitCh
  if digits.isEmpty then none
  else some (digits.foldl (fun acc c => acc * 10 + (c.toNat - '0'.toNat)) 0,
             cs.drop digits.length)

/-- Parse an optionally-signed integer literal. -/
def parseIntBody (cs : List Char) : Option (Int × List Char) :=
  match cs with
  | '-' :: rest =>
    match parseNatBody rest with
    | some (n, rest2) => some (-(n : Int), rest2)
    | none => none
  | _ =>
    match parseNatBody cs with
    | some (n, rest2) => some ((n : Int), rest2)
    | none => none

mutual

/-- Recursive-descent JSON value parser (fuel-indexed). -/
def parseVal : Nat → List Char → Option (Json × List Char)
  | 0, _ => none
  | Nat.succ fuel, cs =>
    match skipWs cs with
    | 'n' :: 'u' :: 'l' :: 'l' :: rest => some (Json.null, rest)
    | 't' :: 'r' :: 'u' :: 'e' :: rest => some (Json.bool true, rest)
    | 'f' :: 'a' :: 'l' :: 's' :: 'e' :: rest => some (Json.bool false, rest)
    | '"' :: rest =>
      match parseStringBody rest with
      | some (s, rest2) => some (Json.str s, rest2)
      | none => none
    | '[' :: rest =>
      (match skipWs rest with
       | ']' :: rest2 => some (Json.arr [], rest2)
       | _ =>
         match parseVal fuel rest with
         | some (v, rest2) =>
           match parseArrTail fuel rest2 with
           | some (vs, rest3) => some (Json.arr (v :: vs), rest3)
           | none => none
         | none => none)
    | '{' :: rest =>
      (match skipWs rest with
       | '}' :: rest2 => some (Json.obj [], rest2)
       | '"' :: rest2 =>
         (match parseStringBody rest2 with
          | some (k, rest3) =>
            (match skipWs rest3 with
             | ':' :: rest4 =>
               match parseVal fuel rest4 with
               | some (v, rest5) =>
                 match parseObjTail fuel rest5 with
                 | some (fs, rest6) => some (Json.obj ((k, v) :: fs), rest6)
                 | none => none
               | none => none
             | _ => none)
          | none => none)
       | _ => none)
    | c :: rest =>
      if c == '-' || isDigitCh c then
        match parseIntBody (c :: rest) with
        | some (n, rest2) => some (Json.num n, rest2)
        | none => none
      else none
    | [] => none

/-- Array elements after the first one: `,` value ... `]`. -/
def parseArrTail : Nat → List Char → Option (List Json × List Char)
  | 0, _ => none
  | Nat.succ fuel, cs =>
    match skipWs cs with
    | ']' :: rest => some ([], rest)
    | ',' :: rest =>
      (match parseVal fuel rest with
       | some (v, rest2) =>
         match parseArrTail fuel rest2 with
         | some (vs, rest3) => some (v :: vs, rest3)
         | none => none
       | none => none)
    | _ => none

/-- Object fields after the first one: `,` "key" `:` value ... `\x7d`. -/
def parseObjTail : Nat → List Char → Option (List (String × Json) × List Char)
  | 0, _ => none
  | Nat.succ fuel, cs =>
    match skipWs cs with
    | '}' :: rest => some ([], rest)
    | ',' :: rest =>
      (match skipWs rest with
       | '"' :: rest2 =>
         (match parseStringBody rest2 with
          | some (k, rest3) =>
            (match skipWs rest3 with
             | ':' :: rest4 =>
               match parseVal fuel rest4 with
               | some (v, rest5) =>
                 match parseObjTail fuel rest5 with
                 | some (fs, rest6) => some ((k, v) :: fs, rest6)
                 | none => none
               | none => none
             | _ => none)
          | none => none)
       | _ => none)
    | _ => none

end

/-- `JSON.parse`: a single value followed only by whitespace. -/
def parseJson (cs : List Char) : Option Json :=
  match parseVal (cs.length + 1) cs with
  | some (j, rest) => if (skipWs rest).isEmpty then some j else none
  | none => none

/-- The regex `\x7b[\s\S]*\x7d` applied by `parseActionFromResponse`
(line 349): greedy, so it spans from the first `\x7b` to the **last**
`\x7d` of the text.  Returns the matched substring. -/
def extractGreedy : List Char → Option (List Char)
  | [] => none
  | c :: rest =>
    if c == '{' then
      match rest.reverse.dropWhile (fun c2 => c2 != '}') with
      | [] => none
      | l => some ('{' :: l.reverse)
    else
      extractGreedy rest

/-- Depth-counting scan used by `extractFirstBalanced`. -/
def scanBalanced : Nat → List Char → List Char → Option (List Char)
  | _, _, [] => none
  | depth, acc, c :: rest =>
    if c == '{' then scanBalanced (depth + 1) (acc ++ [c]) rest
    else if c == '}' then
      if depth == 1 then some (acc ++ [c])
      else scanBalanced (depth - 1) (acc ++ [c]) rest
    else scanBalanced depth (acc ++ [c]) rest

/-- Modelled from the spec: "extracting the first balanced-brace object"
(spec sections 4.2 and the C6 claim).  The first `\x7b` opens the object and
it closes when the brace depth returns to zero.  Defined only to be
compared with the source's greedy `extractGreedy`. -/
def extractFirstBalanced : List Char → Option (List Char)
  | [] => none
  | c :: rest =>
    if c == '{' then scanBalanced 1 ['{'] rest
    else extractFirstBalanced rest

/-- JS truthiness restricted to JSON values (used for `x || default`). -/
def jsTruthy : Json → Bool
  | Json.null => false
  | Json.bool b => b
  | Json.num n => n != 0
  | Json.str s => s != ""
  | Json.arr _ => true
  | Json.obj _ => true

/-- `v || dflt` where an absent field is `undefined` (falsy). -/
def jsOr (v : Option Json) (dflt : Json) : Json :=
  match v with
  | some j => if jsTruthy j then j else dflt
  | none => dflt

/-- Property access on a parsed JSON value. -/
def getField (j : Json) (key : String) : Option Json :=
  match j with
  | Json.obj fields => fields.lookup key
  | _ => none

/-- `action.type === 'DONE'` (line 358): strict equality against the
string literal, so true exactly when the field is the string "DONE". -/
def isDoneType : Option Json → Bool
  | some (Json.str s) => s == "DONE"
  | _ => false

/-- The record built by `parseActionFromResponse` (lines 362-367).
`type` keeps the raw field (`undefined` when absent); `isFinal` records
the truthiness of `action.isFinal || false`. -/
structure ParsedAction where
  type : Option Json
  description : Json
  params : Json
  isFinal : Bool

/-- `parseActionFromResponse` (TaskController.js lines 345-372): greedy
brace match, `JSON.parse` (a thrown parse error is caught and yields
null), the `DONE` sentinel yields null, otherwise the action record with
defaulted fields.  The `response.reply || response` coercion is dropped:
the argument is the reply text. -/
def parseActionFromResponse (text : String) : Option ParsedAction :=
  match extractGreedy text.toList with
  | none => none
  | some cs =>
    match parseJson cs with
    | none => none
    | some j =>
      if isDoneType (getField j "type") then none
      else
        some
          { type := getField j "type"
            description := jsOr (getField j "description") (Json.str "Executing action")
            params := jsOr (getField j "params") (Json.obj [])
            isFinal :=
              match getField j "isFinal" with
              | some v => jsTruthy v
              | none => false }

/-- Modelled from the spec: `parseActionFromResponse` as the C6 claim
describes it, i.e. with the **first balanced-brace object** extracted
instead of the greedy regex match; everything after extraction is
identical.  Defined only for comparison with the source function. -/
def specParseFirstBalanced (text : String) : Option ParsedAction :=
  match extractFirstBalanced text.toList with
  | none => none
  | some cs =>
    match parseJson cs with
    | none => none
    | some j =>
      if isDoneType (getField j "type") then none
      else
        some
          { type := getField j "type"
            description := jsOr (getField j "description") (Json.str "Executing action")
            params := jsOr (getField j "params") (Json.obj [])
            isFinal :=
              match getField j "isFinal" with
              | some v => jsTruthy v
              | none => false }

/-! ## The ReAct loop

`executeComplexTask` (lines 66-209) is embedded as a pure interpreter.
External effects are oracles, indexed by the 1-based step counter:
* `reasonResults` — the value of `this.reason(taskState)` (its `catch`
  already converts a reasoning failure into `null`, so `Option Action` is
  total);
* `confirmResults` — the boolean `waitForConfirmation` resolves with
  (`false` covers both an explicit denial and the 30 s timeout);
* `actResults` — the `{success, error?}` record returned by `this.act`
  (its `catch` converts any throw into a failed result);
* `screenshots` — `some path` when `screenshotService.capture()`
  succeeds, `none` when the service is absent or capture throws.
-/

/-- The `{success, error?}` result of `act` (error defaults to ""). -/
structure ActionResult where
  success : Bool
  error : String := ""
deriving DecidableEq, Repr

/-- An entry of `taskState.steps` (timestamp not modelled). -/
structure StepRec where
  action : Action
  result : ActionResult
deriving DecidableEq, Repr

/-- The observation record built by `observe` (lines 262-297). -/
structure Obs where
  stepNumber : Nat
  actionSuccess : Bool
  screenshotPath : Option String
  summary : String
  taskComplete : Bool
deriving DecidableEq, Repr

/-- `taskState` (lines 71-84) plus the `confirmationResult` field that
`handleUserConfirmation` may attach (line 525).  `context` is inlined. -/
structure TaskRec where
  state : TaskState
  steps : List StepRec
  currentStep : Nat
  maxSteps : Nat
  errors : List String
  observations : List Obs
  screenshots : List String
  confirmationResult : Option Bool
deriving DecidableEq, Repr

/-- The socket emissions of `executeComplexTask`.  Payload fields derived
from wall-clock data (taskId, duration, timestamps) and fixed message
strings are dropped. -/
inductive Event where
  | taskStarted
  | taskStep (step : Nat) (phase : String)
  | confirmationRequired (action : Action)
  | taskCompleted (success : Bool) (steps : Nat) (errors : List String)
  | taskFailed (error : String)
deriving DecidableEq, Repr

/-- The oracle bundle standing for the external collaborators. -/
structure Env where
  reasonResults : Nat → Option Action
  confirmResults : Nat → Bool
  actResults : Nat → ActionResult
  screenshots : Nat → Option String

/-- `observe` (lines 262-297): best-effort screenshot, one-line summary,
task-complete read from the last recorded step's `isFinal`.  Returns the
observation and the updated `context.screenshots`. -/
def observe (env : Env) (t : TaskRec) (r : ActionResult) : Obs × List String :=
  let n := t.currentStep
  let scr := env.screenshots n
  let shots :=
    match scr with
    | some p => t.screenshots ++ [p]
    | none => t.screenshots
  let e := r.error
  let summary :=
    if r.success then s!"Step {n} completed successfully"
    else s!"Step {n} failed: {e}"
  let taskComplete :=
    match t.steps.getLast? with
    | some st => st.action.isFinal
    | none => false
  ({ stepNumber := n, actionSuccess := r.success, screenshotPath := scr,
     summary := summary, taskComplete := taskComplete }, shots)

/-- The value of one loop iteration: the updated task, the
`taskState.state` assignments it performed, the events it emitted, and
whether the `while` loop continues. -/
structure IterResult where
  task : TaskRec
  states : List TaskState
  events : List Event
  cont : Bool

/-- The ACT and OBSERVE phases of one iteration (lines 135-177): emit the
acting step, record the step (an unsuccessful result also appends its
error), emit the observing step, record the observation, and complete
when the observation says so. -/
def actAndObserve (env : Env) (a : Action) (t0 : TaskRec) : IterResult :=
  let n := t0.currentStep
  let r := env.actResults n
  let t1 : TaskRec :=
    { t0 with state := TaskState.acting,
              steps := t0.steps ++ [{ action := a, result := r }] }
  let t2 : TaskRec :=
    { t1 with errors := if r.success then t1.errors else t1.errors ++ [r.error] }
  let ores := observe env t2 r
  let t3 : TaskRec :=
    { t2 with state := TaskState.observing,
              observations := t2.observations ++ [ores.1],
              screenshots := ores.2 }
  let evs := [Event.taskStep n "acting", Event.taskStep n "observing"]
  if ores.1.taskComplete then
    { task := { t3 with state := TaskState.completed },
      states := [TaskState.acting, TaskState.observing, TaskState.completed],
      events := evs, cont := false }
  else
    { task := t3,
      states := [TaskState.acting, TaskState.observing],
      events := evs, cont := true }

/-- One iteration of the ReAct `while` loop (lines 96-178): increment the
counter, REASON (a null action completes the task), GATE (a flagged
action emits `task:confirmation_required` and blocks; a false answer
fails the task with "User rejected action"), then ACT and OBSERVE. -/
def loopIter (env : Env) (t0 : TaskRec) : IterResult :=
  let t : TaskRec :=
    { t0 with currentStep := t0.currentStep + 1, state := TaskState.reasoning }
  let n := t.currentStep
  match env.reasonResults n with
  | none =>
    { task := { t with state := TaskState.completed },
      states := [TaskState.reasoning, TaskState.completed],
      events := [Event.taskStep n "reasoning"], cont := false }
  | some a =>
    if requiresConfirmation a then
      let tA : TaskRec := { t with state := TaskState.awaitingConfirmation }
      if env.confirmResults n then
        let res := actAndObserve env a tA
        { res with
            states := TaskState.reasoning :: TaskState.awaitingConfirmation :: res.states,
            events := Event.taskStep n "reasoning" :: Event.confirmationRequired a :: res.events }
      else
        { task := { tA with state := TaskState.failed,
                            errors := tA.errors ++ ["User rejected action"] },
          states := [TaskState.reasoning, TaskState.awaitingConfirmation, TaskState.failed],
          events := [Event.taskStep n "reasoning", Event.confirmationRequired a],
          cont := false }
    else
      let res := actAndObserve env a t
      { res with
          states := TaskState.reasoning :: res.states,
          events := Event.taskStep n "reasoning" :: res.events }

/-- The accumulated result of running the loop. -/
structure RunResult where
  task : TaskRec
  states : List TaskState
  events : List Event

/-- The `while (currentStep < maxSteps)` loop, fuelled by the number of
remaining permitted iterations. -/
def runLoop (env : Env) : Nat → TaskRec → RunResult
  | 0, t => { task := t, states := [], events := [] }
  | Nat.succ fuel, t =>
    let res := loopIter env t
    if res.cont then
      let rest := runLoop env fuel res.task
      { task := rest.task, states := res.states ++ rest.states,
        events := res.events ++ rest.events }
    else
      { task := res.task, states := res.states, events := res.events }

/-- The fresh `taskState` of lines 71-84. -/
def initTask : TaskRec :=
  { state := TaskState.pending, steps := [], currentStep := 0, maxSteps := 10,
    errors := [], observations := [], screenshots := [], confirmationResult := none }

/-- `executeComplexTask` (lines 66-209) on the exception-free paths: the
initial PENDING state, `task:started`, the loop, and the final
`task:completed` emission whose success is `state === COMPLETED`.  (The
`catch` branch emitting `task:failed` fires only when a collaborator
throws past its own handlers; the oracles model collaborators that
return, as `reason`/`act` enforce with their own try/catch.) -/
def executeComplexTask (env : Env) : RunResult :=
  let t0 := initTask
  let res := runLoop env (t0.maxSteps - t0.currentStep) t0
  { task := res.task,
    states := TaskState.pending :: res.states,
    events := Event.taskStarted ::
      (res.events ++
        [Event.taskCompleted (res.task.state == TaskState.completed)
          res.task.steps.length res.task.errors]) }

def finalTask (env : Env) : TaskRec := (executeComplexTask env).task

def stateTrace (env : Env) : List TaskState := (executeComplexTask env).states

def eventsOf (env : Env) : List Event := (executeComplexTask env).events

/-! ## Confirmation wait and session-level entry points -/

/-- The fixed confirmation timeout (line 507). -/
def confirmationTimeoutMs : Nat := 30000

/-- The observable state of one `waitForConfirmation` promise
(lines 503-517): whether it has resolved (and with what), whether its
`task:confirm` handler is still subscribed on the socket, and whether its
timeout is still armed. -/
structure WaitState where
  resolved : Option Bool
  subscribed : Bool
  timeoutArmed : Bool
deriving DecidableEq, Repr

/-- A freshly created wait: pending, handler subscribed, timer armed. -/
def waitInit : WaitState :=
  { resolved := none, subscribed := true, timeoutArmed := true }

/-- A JS promise resolves at most once; later calls are no-ops. -/
def resolveOnce (r : Option Bool) (b : Bool) : Option Bool :=
  match r with
  | some v => some v
  | none => some b

/-- The `task:confirm` handler (lines 509-513): clear the timeout,
unsubscribe itself, resolve with `data.confirmed`.  It runs only while
subscribed. -/
def onConfirmSignal (w : WaitState) (confirmed : Bool) : WaitState :=
  if w.subscribed then
    { resolved := resolveOnce w.resolved confirmed,
      subscribed := false, timeoutArmed := false }
  else w

/-- The timeout callback (lines 505-507): after `confirmationTimeoutMs`
it resolves `false`.  It does **not** call `socket.off`, so the handler
stays subscribed. -/
def onConfirmTimeout (w : WaitState) : WaitState :=
  if w.timeoutArmed then
    { w with resolved := resolveOnce w.resolved false, timeoutArmed := false }
  else w

/-- A session as seen by the confirmation entry points: the registry
entry for the session (if any) and the state of its pending wait. -/
structure SessionState where
  task : Option TaskRec
  wait : WaitState
deriving DecidableEq, Repr

/-- `handleUserConfirmation` (lines 522-527): when the session has a task
in AWAITING_CONFIRMATION it stores the boolean in
`task.confirmationResult`; it never touches the pending promise. -/
def handleUserConfirmation (s : SessionState) (confirmed : Bool) : SessionState :=
  match s.task with
  | some t =>
    if t.state == TaskState.awaitingConfirmation then
      { s with task := some { t with confirmationResult := some confirmed } }
    else s
  | none => s

/-- The result of `cancelTask`: the updated registry, the returned
boolean, and the (mutated) task object it cancelled, if any. -/
structure CancelResult where
  registry : String → Option TaskRec
  returned : Bool
  cancelled : Option TaskRec

/-- `cancelTask` (lines 546-555): if the session has an active task, mark
it FAILED, push the error string "Task cancelled by user", delete the
registry entry, and return true; otherwise return false. -/
def cancelTask (reg : String → Option TaskRec) (sessionId : String) : CancelResult :=
  match reg sessionId with
  | some task =>
    let cancelledTask : TaskRec :=
      { task with state := TaskState.failed,
                  errors := task.errors ++ ["Task cancelled by user"] }
    { registry := fun s => if s == sessionId then none else reg s,
      returned := true, cancelled := some cancelledTask }
  | none => { registry := reg, returned := false, cancelled := none }

/-! ## Predicates used by the claims -/

/-- The state-assignment successions the embedded code can actually
perform (see `loopIter`): the gate runs **between** REASONING and ACTING. -/
def allowedTrans : TaskState → TaskState → Bool
  | TaskState.pending, TaskState.reasoning => true
  | TaskState.observing, TaskState.reasoning => true
  | TaskState.reasoning, TaskState.completed => true
  | TaskState.reasoning, TaskState.awaitingConfirmation => true
  | TaskState.reasoning, TaskState.acting => true
  | TaskState.awaitingConfirmation, TaskState.acting => true
  | TaskState.awaitingConfirmation, TaskState.failed => true
  | TaskState.acting, TaskState.observing => true
  | TaskState.observing, TaskState.completed => true
  | _, _ => false

/-- The succession pattern asserted by claim C8:
PENDING → REASONING → ACTING → [AWAITING_CONFIRMATION] → OBSERVING,
looping back to REASONING and ending in COMPLETED or FAILED (terminal
entry is allowed generously from any state). -/
def claimedTrans : TaskState → TaskState → Bool
  | _, TaskState.completed => true
  | _, TaskState.failed => true
  | TaskState.pending, TaskState.reasoning => true
  | TaskState.reasoning, TaskState.acting => true
  | TaskState.acting, TaskState.awaitingConfirmation => true
  | TaskState.acting, TaskState.observing => true
  | TaskState.awaitingConfirmation, TaskState.observing => true
  | TaskState.observing, TaskState.reasoning => true
  | _, _ => false

/-- The 1-based step numbers of the emitted reasoning `task:step` events,
in emission order. -/
def reasonSteps (l : List Event) : List Nat :=
  l.filterMap fun e =>
    match e with
    | Event.taskStep k ph => if ph == "reasoning" then some k else none
    | _ => none

def isCompletedEv : Event → Bool
  | Event.taskCompleted _ _ _ => true
  | _ => false

def isFailedEv : Event → Bool
  | Event.taskFailed _ => true
  | _ => false

/-- `x` occurs before any occurrence of `y` in `l`: every prefix of `l`
containing `y` already contains `x`. -/
def eventBefore (x y : Event) (l : List Event) : Prop :=
  ∀ p, p <+: l → y ∈ p → x ∈ p

/-! ## Concrete scenario data -/

/-- A dangerous final action: a `system` action whose command contains
the deny-list term "shutdown". -/
def dangerAction : Action :=
  { type := "system", description := "shutdown the machine",
    params := { command := some "shutdown /s" }, isFinal := true }

/-- An environment whose reasoner and confirmation oracles are constant;
actions always succeed and no screenshots are taken. -/
def constEnv (reason : Option Action) (confirm : Bool) : Env :=
  { reasonResults := fun _ => reason, confirmResults := fun _ => confirm,
    actResults := fun _ => { success := true, error := "" },
    screenshots := fun _ => none }

/-- Scenario: a dangerous action that the user approves. -/
def envDanger : Env := constEnv (some dangerAction) true

/-- Scenario: a dangerous action that the user denies (or the 30 s
timeout resolves the wait to false). -/
def envDenied : Env := constEnv (some dangerAction) false

/-- Scenario: the reasoner immediately answers "done". -/
def envDone : Env := constEnv none false

/-- Scenario: an ordinary (ungated, non-final) keyboard action forever,
so the loop can only stop at the `maxSteps` bound. -/
def envForever : Env := constEnv (some { type := "keyboard" }) false

/-- The `taskState.state` assignments performed by the ACT/OBSERVE phase:
completion is appended exactly when the action was self-final. -/
def actStates (a : Action) : List TaskState :=
  if a.isFinal then [TaskState.acting, TaskState.observing, TaskState.completed]
  else [TaskState.acting, TaskState.observing]

/-- The task state after the ACT/OBSERVE phase. -/
def actEndState (a : Action) : TaskState :=
  if a.isFinal then TaskState.completed else TaskState.observing

/-- A one-session registry holding a fresh task under "session-1". -/
def demoRegistry : String → Option TaskRec :=
  fun s => if s == "session-1" then some initTask else none

/-- A task blocked in AWAITING_CONFIRMATION. -/
def awaitingTask : TaskRec := { initTask with state := TaskState.awaitingConfirmation }

/-- A session whose task awaits confirmation and whose
`waitForConfirmation` promise is pending. -/
def demoSession : SessionState := { task := some awaitingTask, wait := waitInit }

/-- A reply whose first balanced-brace object is followed by a stray
closing brace: `\x7b"type": "app"\x7d \x7d`. -/
def braceInput : String := "\x7b\"type\": \"app\"\x7d \x7d"

/-- A "done" reply with prose before the JSON object. -/
def doneReply : String := "Done: \x7b\"type\": \"DONE\"\x7d"

/-- The greedy brace match inside `doneReply`. -/
def doneReplyExtract : List Char := "\x7b\"type\": \"DONE\"\x7d".toList

/-- The JSON value of `doneReplyExtract`. -/
def doneReplyJson : Json := Json.obj [("type", Json.str "DONE")]

/-! ## Supporting lemmas -/

lemma getLastAppend {α : Type} (l : List α) (x : α) : (l ++ [x]).getLast? = some x := by
  induction l with
  | nil => rfl
  | cons a l ih =>
    rw [List.cons_append, List.getLast?_cons, ih]
    cases l <;> simp_all [List.getLast?_cons]

lemma prefixSplit {α : Type} {p l₁ l₂ : List α} (h : p <+: l₁ ++ l₂) :
    p <+: l₁ ∨ ∃ q, p = l₁ ++ q ∧ q <+: l₂ := by
  induction l₁ generalizing p with
  | nil => exact Or.inr ⟨p, by simp, by simpa using h⟩
  | cons a l ih =>
    cases p with
    | nil => exact Or.inl ⟨a :: l, rfl⟩
    | cons b q =>
      obtain ⟨s, hs⟩ := h
      simp only [List.cons_append, List.cons.injEq] at hs
      obtain ⟨rfl, hs2⟩ := hs
      rcases ih ⟨s, hs2⟩ with h3 | ⟨q2, hq2, h4⟩
      · obtain ⟨s2, hs3⟩ := h3
        exact Or.inl ⟨s2, by simp [hs3]⟩
      · exact Or.inr ⟨q2, by simp [hq2], h4⟩

lemma eventBefore_nil (x y : Event) : eventBefore x y [] := by
  intro p hp hy
  obtain ⟨s, hs⟩ := hp
  obtain ⟨rfl, -⟩ := List.append_eq_nil.mp hs
  cases hy

lemma eventBefore_not_mem {x y : Event} {l : List Event} (h : y ∉ l) :
    eventBefore x y l :=
  fun _ hp hy => absurd (hp.sublist.subset hy) h

lemma eventBefore_append_right {x y : Event} {l₁ l₂ : List Event}
    (h₁ : y ∉ l₁) (h₂ : eventBefore x y l₂) : eventBefore x y (l₁ ++ l₂) := by
  intro p hp hy
  rcases prefixSplit hp with h | ⟨q, rfl, hq⟩
  · exact absurd (h.sublist.subset hy) h₁
  · rcases List.mem_append.mp hy with h | h
    · exact absurd h h₁
    · exact List.mem_append_right _ (h₂ q hq h)

lemma eventBefore_append_left {x y : Event} {l₁ l₂ : List Event}
    (h₁ : eventBefore x y l₁) (h₂ : y ∉ l₂) : eventBefore x y (l₁ ++ l₂) := by
  intro p hp hy
  rcases prefixSplit hp with h | ⟨q, rfl, hq⟩
  · exact h₁ p h hy
  · rcases List.mem_append.mp hy with h | h
    · exact List.mem_append_left _ (h₁ l₁ ⟨[], by simp⟩ h)
    · exact absurd (hq.sublist.subset h) h₂

lemma eventBefore_cons {x y z : Event} {l : List Event}
    (hne : y ≠ z) (h : eventBefore x y l) : eventBefore x y (z :: l) := by
  have h2 : eventBefore x y ([z] ++ l) := eventBefore_append_right (by simp [hne]) h
  simpa using h2

/-- Whenever a list starts `e :: x :: _`, anything other than `e` is
preceded by `x` in it. -/
lemma eventBefore_second {x y e : Event} (hne : y ≠ e) (l : List Event) :
    eventBefore x y (e :: x :: l) := by
  intro p hp hy
  cases p with
  | nil => cases hy
  | cons b p2 =>
    obtain ⟨s, hs⟩ := hp
    simp only [List.cons_append, List.cons.injEq] at hs
    obtain ⟨rfl, hs2⟩ := hs
    cases p2 with
    | nil => simp at hy; exact absurd hy hne
    | cons c p3 =>
      simp only [List.cons_append, List.cons.injEq] at hs2
      obtain ⟨rfl, -⟩ := hs2
      exact List.mem_cons_of_mem _ (List.mem_cons_self _ _)

lemma runLoop_succ_task (env : Env) (fuel : Nat) (t : TaskRec) :
    (runLoop env (fuel + 1) t).task =
      (if (loopIter env t).cont then (runLoop env fuel (loopIter env t).task).task
       else (loopIter env t).task) := by
  simp only [runLoop]
  split <;> rfl

lemma runLoop_succ_events (env : Env) (fuel : Nat) (t : TaskRec) :
    (runLoop env (fuel + 1) t).events =
      (loopIter env t).events ++
        (if (loopIter env t).cont then (runLoop env fuel (loopIter env t).task).events
         else []) := by
  simp only [runLoop]
  split <;> simp

lemma runLoop_succ_states (env : Env) (fuel : Nat) (t : TaskRec) :
    (runLoop env (fuel + 1) t).states =
      (loopIter env t).states ++
        (if (loopIter env t).cont then (runLoop env fuel (loopIter env t).task).states
         else []) := by
  simp only [runLoop]
  split <;> simp

lemma executeComplexTask_eq (env : Env) :
    executeComplexTask env =
      { task := (runLoop env 10 initTask).task,
        states := TaskState.pending :: (runLoop env 10 initTask).states,
        events := Event.taskStarted ::
          ((runLoop env 10 initTask).events ++
            [Event.taskCompleted
              ((runLoop env 10 initTask).task.state == TaskState.completed)
              (runLoop env 10 initTask).task.steps.length
              (runLoop env 10 initTask).task.errors]) } := rfl

/-- The observable behaviour of the ACT/OBSERVE phase. -/
lemma actAndObserve_proj (env : Env) (a : Action) (t : TaskRec) :
    (actAndObserve env a t).task.currentStep = t.currentStep ∧
    (actAndObserve env a t).task.maxSteps = t.maxSteps ∧
    (actAndObserve env a t).states = actStates a ∧
    (actAndObserve env a t).events =
      [Event.taskStep t.currentStep "acting", Event.taskStep t.currentStep "observing"] ∧
    (actAndObserve env a t).cont = !a.isFinal ∧
    (actAndObserve env a t).task.state = actEndState a := by
  unfold actAndObserve observe
  simp only [getLastAppend]
  cases hf : a.isFinal <;> simp [actStates, actEndState, hf]

/-- Branch analysis of one loop iteration: the counter always advances by
one, `maxSteps` is untouched, and the iteration is one of: reasoner done,
gate denied, gate approved, or ungated. -/
lemma loopIter_shape (env : Env) (t : TaskRec) :
    (loopIter env t).task.currentStep = t.currentStep + 1 ∧
    (loopIter env t).task.maxSteps = t.maxSteps ∧
    ((env.reasonResults (t.currentStep + 1) = none ∧
      (loopIter env t).states = [TaskState.reasoning, TaskState.completed] ∧
      (loopIter env t).events = [Event.taskStep (t.currentStep + 1) "reasoning"] ∧
      (loopIter env t).cont = false ∧
      (loopIter env t).task.state = TaskState.completed) ∨
     (∃ a, env.reasonResults (t.currentStep + 1) = some a ∧
      requiresConfirmation a = true ∧
      env.confirmResults (t.currentStep + 1) = false ∧
      (loopIter env t).states =
        [TaskState.reasoning, TaskState.awaitingConfirmation, TaskState.failed] ∧
      (loopIter env t).events =
        [Event.taskStep (t.currentStep + 1) "reasoning", Event.confirmationRequired a] ∧
      (loopIter env t).cont = false ∧
      (loopIter env t).task.state = TaskState.failed ∧
      (loopIter env t).task.errors = t.errors ++ ["User rejected action"]) ∨
     (∃ a, env.reasonResults (t.currentStep + 1) = some a ∧
      requiresConfirmation a = true ∧
      env.confirmResults (t.currentStep + 1) = true ∧
      (loopIter env t).states =
        TaskState.reasoning :: TaskState.awaitingConfirmation :: actStates a ∧
      (loopIter env t).events =
        [Event.taskStep (t.currentStep + 1) "reasoning", Event.confirmationRequired a,
         Event.taskStep (t.currentStep + 1) "acting",
         Event.taskStep (t.currentStep + 1) "observing"] ∧
      (loopIter env t).cont = !a.isFinal ∧
      (loopIter env t).task.state = actEndState a) ∨
     (∃ a, env.reasonResults (t.currentStep + 1) = some a ∧
      requiresConfirmation a = false ∧
      (loopIter env t).states = TaskState.reasoning :: actStates a ∧
      (loopIter env t).events =
        [Event.taskStep (t.currentStep + 1) "reasoning",
         Event.taskStep (t.currentStep + 1) "acting",
         Event.taskStep (t.currentStep + 1) "observing"] ∧
      (loopIter env t).cont = !a.isFinal ∧
      (loopIter env t).task.state = actEndState a)) := by
  cases hr : env.reasonResults (t.currentStep + 1) with
  | none =>
    refine ⟨?_, ?_, Or.inl ⟨rfl, ?_, ?_, ?_, ?_⟩⟩ <;> simp [loopIter, hr]
  | some a =>
    cases hg : requiresConfirmation a with
    | false =>
      have hp := actAndObserve_proj env a
        { t with currentStep := t.currentStep + 1, state := TaskState.reasoning }
      refine ⟨?_, ?_, Or.inr (Or.inr (Or.inr ⟨a, rfl, hg, ?_, ?_, ?_, ?_⟩))⟩ <;>
        simp [loopIter, hr, hg, hp.1, hp.2.1, hp.2.2.1, hp.2.2.2.1,
          hp.2.2.2.2.1, hp.2.2.2.2.2]
    | true =>
      cases hc : env.confirmResults (t.currentStep + 1) with
      | false =>
        refine ⟨?_, ?_, Or.inr (Or.inl ⟨a, rfl, hg, rfl, ?_, ?_, ?_, ?_, ?_⟩)⟩ <;>
          simp [loopIter, hr, hg, hc]
      | true =>
        have hp := actAndObserve_proj env a
          { t with currentStep := t.currentStep + 1, state := TaskState.awaitingConfirmation }
        refine ⟨?_, ?_, Or.inr (Or.inr (Or.inl ⟨a, rfl, hg, rfl, ?_, ?_, ?_, ?_⟩))⟩ <;>
          simp [loopIter, hr, hg, hc, hp.1, hp.2.1, hp.2.2.1, hp.2.2.2.1,
            hp.2.2.2.2.1, hp.2.2.2.2.2]

lemma reasonSteps_append (l₁ l₂ : List Event) :
    reasonSteps (l₁ ++ l₂) = reasonSteps l₁ ++ reasonSteps l₂ :=
  List.filterMap_append _ _ _

/-- The loop never decreases the step counter, performs at most `fuel`
iterations, and leaves `maxSteps` unchanged. -/
lemma runLoop_bounds (env : Env) :
    ∀ (fuel : Nat) (t : TaskRec),
      t.currentStep ≤ (runLoop env fuel t).task.currentStep ∧
      (runLoop env fuel t).task.currentStep ≤ t.currentStep + fuel ∧
      (runLoop env fuel t).task.maxSteps = t.maxSteps := by
  intro fuel
  induction fuel with
  | zero => intro t; exact ⟨Nat.le_refl _, Nat.le_refl _, rfl⟩
  | succ fuel ih =>
    intro t
    obtain ⟨hcs, hms, -⟩ := loopIter_shape env t
    rw [runLoop_succ_task]
    cases hcont : (loopIter env t).cont with
    | false =>
      simp only [hcont, Bool.false_eq_true, if_false]
      exact ⟨by omega, by omega, hms⟩
    | true =>
      obtain ⟨ih1, ih2, ih3⟩ := ih (loopIter env t).task
      simp only [hcont, if_true]
      exact ⟨by omega, by omega, by rw [ih3, hms]⟩

/-- The reasoning `task:step` events of a loop run carry exactly the
consecutive step numbers from the starting counter (exclusive) to the
final counter (inclusive). -/
lemma runLoop_reasonSteps (env : Env) :
    ∀ (fuel : Nat) (t : TaskRec),
      reasonSteps (runLoop env fuel t).events =
        List.range' (t.currentStep + 1)
          ((runLoop env fuel t).task.currentStep - t.currentStep) := by
  intro fuel
  induction fuel with
  | zero => intro t; simp [runLoop, reasonSteps]
  | succ fuel ih =>
    intro t
    obtain ⟨hcs, -, hbr⟩ := loopIter_shape env t
    have hblock : reasonSteps (loopIter env t).events = [t.currentStep + 1] := by
      rcases hbr with ⟨-, -, hev, -⟩ | ⟨a, -, -, -, -, hev, -⟩ |
        ⟨a, -, -, -, -, hev, -⟩ | ⟨a, -, -, -, hev, -⟩ <;>
        simp [hev, reasonSteps]
    rw [runLoop_succ_events, runLoop_succ_task, reasonSteps_append, hblock]
    cases hcont : (loopIter env t).cont with
    | false =>
      simp only [hcont, Bool.false_eq_true, if_false]
      have h1 : t.currentStep + 1 - t.currentStep = 1 := by omega
      rw [hcs, h1, List.range'_one]
      simp [reasonSteps]
    | true =>
      simp only [hcont, if_true]
      obtain ⟨hle, -, -⟩ := runLoop_bounds env fuel (loopIter env t).task
      rw [ih (loopIter env t).task, hcs] at *
      have h2 : (runLoop env fuel (loopIter env t).task).task.currentStep - t.currentStep =
          ((runLoop env fuel (loopIter env t).task).task.currentStep - (t.currentStep + 1)) + 1 := by
        omega
      rw [h2, List.range'_succ]
      simp

/-- The loop body emits neither `task:completed` nor `task:failed`. -/
lemma runLoop_no_terminal (env : Env) :
    ∀ (fuel : Nat) (t : TaskRec),
      ((runLoop env fuel t).events.countP isCompletedEv = 0) ∧
      ((runLoop env fuel t).events.countP isFailedEv = 0) := by
  intro fuel
  induction fuel with
  | zero => intro t; simp [runLoop]
  | succ fuel ih =>
    intro t
    obtain ⟨-, -, hbr⟩ := loopIter_shape env t
    have hblock : ((loopIter env t).events.countP isCompletedEv = 0) ∧
        ((loopIter env t).events.countP isFailedEv = 0) := by
      rcases hbr with ⟨-, -, hev, -⟩ | ⟨a, -, -, -, -, hev, -⟩ |
        ⟨a, -, -, -, -, hev, -⟩ | ⟨a, -, -, -, hev, -⟩ <;>
        simp [hev, isCompletedEv, isFailedEv]
    rw [runLoop_succ_events]
    cases hcont : (loopIter env t).cont with
    | false =>
      simp only [hcont, Bool.false_eq_true, if_false]
      simp [List.countP_append, hblock.1, hblock.2]
    | true =>
      simp only [hcont, if_true]
      obtain ⟨ih1, ih2⟩ := ih (loopIter env t).task
      simp [List.countP_append, hblock.1, hblock.2, ih1, ih2]

/-- Every state assigned by the loop follows its predecessor according to
`allowedTrans`, starting from any state that may precede REASONING. -/
lemma runLoop_chain (env : Env) :
    ∀ (fuel : Nat) (t : TaskRec) (s : TaskState),
      allowedTrans s TaskState.reasoning = true →
      List.Chain' (fun x y => allowedTrans x y = true)
        (s :: (runLoop env fuel t).states) := by
  intro fuel
  induction fuel with
  | zero => intro t s _; simp [runLoop]
  | succ fuel ih =>
    intro t s hs
    obtain ⟨-, -, hbr⟩ := loopIter_shape env t
    rw [runLoop_succ_states]
    rcases hbr with ⟨-, hst, -, hcont, -⟩ | ⟨a, -, -, -, hst, -, hcont, -⟩ |
      ⟨a, -, -, -, hst, -, hcont, -⟩ | ⟨a, -, -, hst, -, hcont, -⟩
    · simp [hst, hcont, List.chain'_cons, hs]
      decide
    · simp [hst, hcont, List.chain'_cons, hs]
      decide
    · cases hf : a.isFinal with
      | true =>
        rw [hst, hcont, hf]
        simp [actStates, hf, List.chain'_cons, hs]
        decide
      | false =>
        rw [hst, hcont, hf]
        simp only [actStates, hf, Bool.false_eq_true, if_false, Bool.not_false, if_true,
          List.cons_append, List.nil_append]
        rw [List.chain'_cons, List.chain'_cons, List.chain'_cons, List.chain'_cons]
        exact ⟨hs, by decide, by decide, by decide, ih _ _ (by decide)⟩
    · cases hf : a.isFinal with
      | true =>
        rw [hst, hcont, hf]
        simp [actStates, hf, List.chain'_cons, hs]
        decide
      | false =>
        rw [hst, hcont, hf]
        simp only [actStates, hf, Bool.false_eq_true, if_false, Bool.not_false, if_true,
          List.cons_append, List.nil_append]
        rw [List.chain'_cons, List.chain'_cons, List.chain'_cons]
        exact ⟨hs, by decide, by decide, ih _ _ (by decide)⟩

/-- After at least one iteration the task is COMPLETED, FAILED, or (when
the step budget ran out mid-flight) left in OBSERVING. -/
lemma runLoop_state_term (env : Env) :
    ∀ (fuel : Nat) (t : TaskRec), fuel ≠ 0 →
      (runLoop env fuel t).task.state = TaskState.completed ∨
      (runLoop env fuel t).task.state = TaskState.failed ∨
      (runLoop env fuel t).task.state = TaskState.observing := by
  intro fuel
  induction fuel with
  | zero => intro t h; exact absurd rfl h
  | succ fuel ih =>
    intro t _
    obtain ⟨-, -, hbr⟩ := loopIter_shape env t
    rw [runLoop_succ_task]
    rcases hbr with ⟨-, -, -, hcont, hstate⟩ | ⟨a, -, -, -, -, -, hcont, hstate, -⟩ |
      ⟨a, -, -, -, -, -, hcont, hstate⟩ | ⟨a, -, -, -, -, hcont, hstate⟩
    · simp [hcont, hstate]
    · simp [hcont, hstate]
    · cases hf : a.isFinal with
      | true =>
        rw [hf] at hcont
        simp [hcont, hstate, actEndState, hf]
      | false =>
        rw [hf] at hcont
        simp only [hcont, Bool.not_false, if_true]
        cases fuel with
        | zero =>
          simp only [runLoop]
          rw [hstate]
          simp [actEndState, hf]
        | succ fuel2 => exact ih _ (Nat.succ_ne_zero _)
    · cases hf : a.isFinal with
      | true =>
        rw [hf] at hcont
        simp [hcont, hstate, actEndState, hf]
      | false =>
        rw [hf] at hcont
        simp only [hcont, Bool.not_false, if_true]
        cases fuel with
        | zero =>
          simp only [runLoop]
          rw [hstate]
          simp [actEndState, hf]
        | succ fuel2 => exact ih _ (Nat.succ_ne_zero _)

/-- Every `task:step` event emitted by a loop run carries a step number
strictly above the starting counter. -/
lemma runLoop_step_gt (env : Env) :
    ∀ (fuel : Nat) (t : TaskRec) (m : Nat) (ph : String),
      Event.taskStep m ph ∈ (runLoop env fuel t).events → t.currentStep < m := by
  intro fuel
  induction fuel with
  | zero => intro t m ph hm; simp [runLoop] at hm
  | succ fuel ih =>
    intro t m ph hm
    obtain ⟨hcs, -, hbr⟩ := loopIter_shape env t
    rw [runLoop_succ_events] at hm
    rcases List.mem_append.mp hm with h | h
    · have hm2 : m = t.currentStep + 1 := by
        rcases hbr with ⟨-, -, hev, -⟩ | ⟨a, -, -, -, -, hev, -⟩ |
          ⟨a, -, -, -, -, hev, -⟩ | ⟨a, -, -, -, hev, -⟩ <;>
          (rw [hev] at h; simp at h; tauto)
      omega
    · cases hcont : (loopIter env t).cont with
      | false => rw [hcont] at h; simp at h
      | true =>
        rw [hcont] at h
        simp only [if_true] at h
        have := ih (loopIter env t).task m ph h
        omega

/-- In every loop run, a `task:confirmation_required` for the action of a
gated step precedes that step's acting dispatch event. -/
lemma runLoop_confirmBefore (env : Env) (n : Nat) (a : Action)
    (hr : env.reasonResults n = some a) (hg : requiresConfirmation a = true) :
    ∀ (fuel : Nat) (t : TaskRec),
      eventBefore (Event.confirmationRequired a) (Event.taskStep n "acting")
        (runLoop env fuel t).events := by
  intro fuel
  induction fuel with
  | zero =>
    intro t
    show eventBefore _ _ []
    exact eventBefore_nil _ _
  | succ fuel ih =>
    intro t
    have hrest : eventBefore (Event.confirmationRequired a) (Event.taskStep n "acting")
        (if (loopIter env t).cont then (runLoop env fuel (loopIter env t).task).events
         else []) := by
      cases hcont : (loopIter env t).cont with
      | false => simpa using eventBefore_nil _ _
      | true => simpa using ih (loopIter env t).task
    obtain ⟨-, -, hbr⟩ := loopIter_shape env t
    rw [runLoop_succ_events]
    by_cases hn : t.currentStep + 1 = n
    · rcases hbr with ⟨hnone, -⟩ | ⟨a2, hr2, -, -, -, hev, -⟩ |
        ⟨a2, hr2, -, -, -, hev, -⟩ | ⟨a2, hr2, hg2, -⟩
      · rw [hn, hr] at hnone; cases hnone
      · rw [hn, hr] at hr2
        obtain rfl : a = a2 := Option.some.injEq _ _ ▸ hr2.symm ▸ rfl
        rw [hev, hn]
        exact eventBefore_second (by simp) _
      · rw [hn, hr] at hr2
        obtain rfl : a = a2 := Option.some.injEq _ _ ▸ hr2.symm ▸ rfl
        rw [hev, hn]
        simp only [List.cons_append]
        exact eventBefore_second (by simp) _
      · rw [hn, hr] at hr2
        obtain rfl : a = a2 := Option.some.injEq _ _ ▸ hr2.symm ▸ rfl
        rw [hg] at hg2; cases hg2
    · have hnot : Event.taskStep n "acting" ∉ (loopIter env t).events := by
        rcases hbr with ⟨-, -, hev, -⟩ | ⟨a2, -, -, -, -, hev, -⟩ |
          ⟨a2, -, -, -, -, hev, -⟩ | ⟨a2, -, -, -, hev, -⟩
        · rw [hev]; simp
        · rw [hev]; simp
        · rw [hev]; intro hmem; simp at hmem; omega
        · rw [hev]; intro hmem; simp at hmem; omega
      exact eventBefore_append_right hnot hrest

/-- If the reasoner proposes a gated action at step `n` and the
confirmation comes back false, then as soon as iteration `n` runs the
whole run ends: FAILED state, the rejection error recorded, no dispatch
of step `n`, and no step numbered beyond `n`. -/
lemma runLoop_denied (env : Env) (n : Nat) (a : Action)
    (hr : env.reasonResults n = some a) (hg : requiresConfirmation a = true)
    (hc : env.confirmResults n = false) :
    ∀ (fuel : Nat) (t : TaskRec),
      Event.taskStep n "reasoning" ∈ (runLoop env fuel t).events →
      (runLoop env fuel t).task.state = TaskState.failed ∧
      "User rejected action" ∈ (runLoop env fuel t).task.errors ∧
      Event.taskStep n "acting" ∉ (runLoop env fuel t).events ∧
      (∀ (m : Nat) (ph : String),
        Event.taskStep m ph ∈ (runLoop env fuel t).events → m ≤ n) := by
  intro fuel
  induction fuel with
  | zero => intro t hmem; simp [runLoop] at hmem
  | succ fuel ih =>
    intro t hmem
    obtain ⟨hcs, -, hbr⟩ := loopIter_shape env t
    by_cases hn : t.currentStep + 1 = n
    · -- iteration n runs here, and it must take the denied branch
      rcases hbr with ⟨hnone, -⟩ | ⟨a2, hr2, -, -, hst, hev, hcont, hstate, herr⟩ |
        ⟨a2, hr2, -, hc2, -⟩ | ⟨a2, hr2, hg2, -⟩
      · rw [hn, hr] at hnone; cases hnone
      · rw [runLoop_succ_events, runLoop_succ_task]
        simp only [hcont, Bool.false_eq_true, if_false, List.append_nil]
        refine ⟨hstate, ?_, ?_, ?_⟩
        · rw [herr]; simp
        · rw [hev]; simp
        · intro m ph hm
          rw [hev] at hm
          simp at hm
          omega
      · rw [hn, hr] at hr2
        obtain rfl : a = a2 := Option.some.injEq _ _ ▸ hr2.symm ▸ rfl
        rw [hn, hc] at hc2; cases hc2
      · rw [hn, hr] at hr2
        obtain rfl : a = a2 := Option.some.injEq _ _ ▸ hr2.symm ▸ rfl
        rw [hg] at hg2; cases hg2
    · -- iteration n is not this one, so the reasoning event sits in the rest
      have hblockStep : ∀ (m : Nat) (ph : String),
          Event.taskStep m ph ∈ (loopIter env t).events → m = t.currentStep + 1 := by
        rcases hbr with ⟨-, -, hev, -⟩ | ⟨a2, -, -, -, -, hev, -⟩ |
          ⟨a2, -, -, -, -, hev, -⟩ | ⟨a2, -, -, -, hev, -⟩ <;>
          (intro m ph hm; rw [hev] at hm; simp at hm; tauto)
      rw [runLoop_succ_events] at hmem
      rcases List.mem_append.mp hmem with h | h
      · exact absurd (hblockStep n "reasoning" h) (by omega)
      · cases hcont : (loopIter env t).cont with
        | false => rw [hcont] at h; simp at h
        | true =>
          rw [hcont] at h
          simp only [if_true] at h
          obtain ⟨ih1, ih2, ih3, ih4⟩ := ih (loopIter env t).task h
          have hlt : t.currentStep + 1 < n := by
            have := runLoop_step_gt env fuel (loopIter env t).task n "reasoning" h
            omega
          rw [runLoop_succ_events, runLoop_succ_task]
          simp only [hcont, if_true]
          refine ⟨ih1, ih2, ?_, ?_⟩
          · intro hmm
            rcases List.mem_append.mp hmm with h2 | h2
            · exact absurd (hblockStep n "acting" h2) (by omega)
            · exact ih3 h2
          · intro m ph hm
            rcases List.mem_append.mp hm with h2 | h2
            · have := hblockStep m ph h2; omega
            · exact ih4 m ph h2

/-! ## The claims -/

/-- C1: in every task run, whenever SecurityGate flags the reasoner's
step-`n` action (`requiresConfirmation` true), the
`task:confirmation_required` emission for that action precedes the acting
dispatch of step `n` in the emitted event stream: every prefix of the run
containing the dispatch already contains the confirmation request, so a
dangerous action is never dispatched without a prior confirmation
request. -/
theorem C1_gate_before_dispatch (env : Env) (n : Nat) (a : Action)
    (hr : env.reasonResults n = some a) (hg : requiresConfirmation a = true) :
    eventBefore (Event.confirmationRequired a) (Event.taskStep n "acting")
      (eventsOf env) := by
  have hloop := runLoop_confirmBefore env n a hr hg 10 initTask
  have hev : eventsOf env = Event.taskStarted ::
      ((runLoop env 10 initTask).events ++
        [Event.taskCompleted ((runLoop env 10 initTask).task.state == TaskState.completed)
          (runLoop env 10 initTask).task.steps.length
          (runLoop env 10 initTask).task.errors]) := rfl
  rw [hev]
  exact eventBefore_cons (by simp) (eventBefore_append_left hloop (by simp))

/-- Witness for C1 at a concrete run: the approved dangerous action of
`envDanger` is dispatched, and the theorem yields the confirmation
request in the trace. -/
theorem C1_gate_before_dispatch_witness :
    Event.confirmationRequired dangerAction ∈ eventsOf envDanger :=
  C1_gate_before_dispatch envDanger 1 dangerAction rfl (by decide)
    (eventsOf envDanger) ⟨[], List.append_nil _⟩ (by decide)

/-- C2: `requiresConfirmation` returns true exactly for `system` actions
whose command text, compared case-insensitively, contains a deny-list
term; in particular it is false for every non-system action.  (Purity and
determinism are inherent: the embedding is a function of the action
alone.) -/
theorem C2_requiresConfirmation_spec (a : Action) :
    requiresConfirmation a = true ↔
      (a.type = "system" ∧ ∃ t, t ∈ DANGEROUS_OPERATIONS ∧
        listHasSubstr (lowerChars t.toList)
          (lowerChars (a.params.command.getD "").toList) = true) := by
  have hlow : ∀ t ∈ DANGEROUS_OPERATIONS, lowerChars t.toList = t.toList := by decide
  by_cases h : a.type = "system"
  · have hbeq : (a.type == "system") = true := by simpa using h
    simp only [requiresConfirmation, hbeq, if_true, List.any_eq_true]
    constructor
    · rintro ⟨t, ht, hp⟩
      exact ⟨h, t, ht, by rw [hlow t ht]; exact hp⟩
    · rintro ⟨-, t, ht, hp⟩
      exact ⟨t, ht, by rw [hlow t ht] at hp; exact hp⟩
  · have hbeq : (a.type == "system") = false := by
      simpa using h
    simp [requiresConfirmation, hbeq, h]

/-- C3: whenever iteration `n` runs (witnessed by its reasoning step
event), proposes a gated action, and the confirmation wait yields false
(denial or 30 s timeout), the task ends FAILED with "User rejected
action" recorded, step `n` is never dispatched, no later iteration runs,
and the final `task:completed` result reports success = false. -/
theorem C3_rejection_fails_task (env : Env) (n : Nat) (a : Action)
    (hr : env.reasonResults n = some a) (hg : requiresConfirmation a = true)
    (hc : env.confirmResults n = false)
    (hreach : Event.taskStep n "reasoning" ∈ eventsOf env) :
    (finalTask env).state = TaskState.failed ∧
    "User rejected action" ∈ (finalTask env).errors ∧
    Event.taskStep n "acting" ∉ eventsOf env ∧
    (∀ (m : Nat) (ph : String), Event.taskStep m ph ∈ eventsOf env → m ≤ n) ∧
    (eventsOf env).getLast? =
      some (Event.taskCompleted false (finalTask env).steps.length
        (finalTask env).errors) := by
  have hev : eventsOf env = Event.taskStarted ::
      ((runLoop env 10 initTask).events ++
        [Event.taskCompleted ((runLoop env 10 initTask).task.state == TaskState.completed)
          (runLoop env 10 initTask).task.steps.length
          (runLoop env 10 initTask).task.errors]) := rfl
  have hmem : Event.taskStep n "reasoning" ∈ (runLoop env 10 initTask).events := by
    rw [hev] at hreach
    rcases List.mem_cons.mp hreach with h | h
    · simp at h
    · rcases List.mem_append.mp h with h2 | h2
      · exact h2
      · simp at h2
  obtain ⟨h1, h2, h3, h4⟩ := runLoop_denied env n a hr hg hc 10 initTask hmem
  refine ⟨h1, h2, ?_, ?_, ?_⟩
  · rw [hev]
    intro hmm
    rcases List.mem_cons.mp hmm with h | h
    · simp at h
    · rcases List.mem_append.mp h with h5 | h5
      · exact h3 h5
      · simp at h5
  · intro m ph hm
    rw [hev] at hm
    rcases List.mem_cons.mp hm with h | h
    · simp at h
    · rcases List.mem_append.mp h with h5 | h5
      · exact h4 m ph h5
      · simp at h5
  · rw [hev, ← List.cons_append, getLastAppend, h1]
    rfl

/-- Witness for C3: in `envDenied` the dangerous action is denied and the
task indeed fails with the rejection error. -/
theorem C3_rejection_fails_task_witness :
    (finalTask envDenied).state = TaskState.failed ∧
    "User rejected action" ∈ (finalTask envDenied).errors := by
  have h := C3_rejection_fails_task envDenied 1 dangerAction rfl (by decide) rfl
    (by decide)
  exact ⟨h.1, h.2.1⟩

/-- C4 counterexample: a session whose task is AWAITING_CONFIRMATION with
a pending wait; calling `handleUserConfirmation` with approved = true
leaves the pending wait completely untouched (still unresolved), so the
entry point does **not** deliver the boolean to the pending
`waitForConfirmation` — it only records it in `confirmationResult`, a
field nothing reads. -/
theorem C4_counterexample :
    demoSession.task = some awaitingTask ∧
    awaitingTask.state = TaskState.awaitingConfirmation ∧
    demoSession.wait.resolved = none ∧
    (handleUserConfirmation demoSession true).wait = demoSession.wait ∧
    (handleUserConfirmation demoSession true).wait.resolved = none := by
  decide

/-- C4 amended: `handleUserConfirmation(sessionId, approved)` never
touches the pending wait; when the session's task is in
AWAITING_CONFIRMATION it only records `approved` in the task's
`confirmationResult` field (which nothing reads).  The pending
`waitForConfirmation` instead resolves with the `confirmed` value of the
`task:confirm` socket event, through its own subscription. -/
theorem C4_confirm_amended (s : SessionState) (b : Bool) :
    (handleUserConfirmation s b).wait = s.wait ∧
    (∀ t, s.task = some t → t.state = TaskState.awaitingConfirmation →
      (handleUserConfirmation s b).task =
        some { t with confirmationResult := some b }) ∧
    (∀ w : WaitState, w.subscribed = true → w.resolved = none →
      (onConfirmSignal w b).resolved = some b ∧
      (onConfirmSignal w b).subscribed = false) := by
  refine ⟨?_, ?_, ?_⟩
  · cases h : s.task with
    | none => simp [handleUserConfirmation, h]
    | some t =>
      simp only [handleUserConfirmation, h]
      split <;> rfl
  · intro t ht hst
    simp [handleUserConfirmation, ht, hst]
  · intro w hs hr
    simp [onConfirmSignal, hs, hr, resolveOnce]

/-- Witness for the amended C4 on the concrete session. -/
theorem C4_confirm_amended_witness :
    (handleUserConfirmation demoSession true).task =
      some { awaitingTask with confirmationResult := some true } ∧
    (onConfirmSignal waitInit true).resolved = some true := by
  have h := C4_confirm_amended demoSession true
  exact ⟨h.2.1 awaitingTask rfl rfl, (h.2.2 waitInit rfl rfl).1⟩

/-- C5, evaluated at the failing input (the timeout path): the timeout
resolves the wait to false, but the `task:confirm` handler stays
subscribed — the subscription is released on the signal path only, so
the claim's "released on both paths" is violated by the code.  The last
conjunct confirms single resolution: a signal arriving after the timeout
cannot change the resolved value. -/
theorem C5_timeout_keeps_subscription :
    (onConfirmTimeout waitInit).resolved = some false ∧
    (onConfirmTimeout waitInit).subscribed = true ∧
    (onConfirmSignal waitInit true).subscribed = false ∧
    (onConfirmSignal (onConfirmTimeout waitInit) true).resolved = some false := by
  decide

/-- C6 counterexample: for a reply whose first balanced-brace object is
followed by a stray `\x7d`, the claimed behaviour (extract the first
balanced object, parse it, return the action) yields an `app` action,
but the source's greedy regex spans to the last `\x7d`, `JSON.parse`
fails, and the function returns null. -/
theorem C6_counterexample :
    parseActionFromResponse braceInput = none ∧
    specParseFirstBalanced braceInput =
      some { type := some (Json.str "app"),
             description := Json.str "Executing action",
             params := Json.obj [], isFinal := false } ∧
    parseActionFromResponse braceInput ≠ specParseFirstBalanced braceInput := by
  have h1 : parseActionFromResponse braceInput = none := rfl
  have h2 : specParseFirstBalanced braceInput =
      some { type := some (Json.str "app"),
             description := Json.str "Executing action",
             params := Json.obj [], isFinal := false } := rfl
  refine ⟨h1, h2, ?_⟩
  rw [h1, h2]
  exact fun h => Option.noConfusion h

/-- C6 amended: `parseActionFromResponse` extracts the **greedy** brace
match (first `\x7b` to last `\x7d`) rather than the first balanced-brace
object; a reply with no such match, a match `JSON.parse` rejects, or a
parsed object of type "DONE" yields null, and a null reasoner result
makes the loop end the task as COMPLETED. -/
theorem C6_parseAction_amended (r : String) :
    (extractGreedy r.toList = none → parseActionFromResponse r = none) ∧
    (∀ cs, extractGreedy r.toList = some cs → parseJson cs = none →
      parseActionFromResponse r = none) ∧
    (∀ cs j, extractGreedy r.toList = some cs → parseJson cs = some j →
      isDoneType (getField j "type") = true → parseActionFromResponse r = none) ∧
    (∀ env : Env, env.reasonResults 1 = none →
      (finalTask env).state = TaskState.completed) := by
  refine ⟨?_, ?_, ?_, ?_⟩
  · intro h
    have h' : extractGreedy r.data = none := h
    simp [parseActionFromResponse, h']
  · intro cs h1 h2
    have h1' : extractGreedy r.data = some cs := h1
    simp [parseActionFromResponse, h1', h2]
  · intro cs j h1 h2 h3
    have h1' : extractGreedy r.data = some cs := h1
    simp [parseActionFromResponse, h1', h2, h3]
  · intro env henv
    obtain ⟨-, -, hbr⟩ := loopIter_shape env initTask
    rcases hbr with ⟨-, -, -, hcont, hstate⟩ | ⟨a, ha, -⟩ | ⟨a, ha, -⟩ | ⟨a, ha, -⟩
    · show (runLoop env 10 initTask).task.state = TaskState.completed
      have h10 : (10 : Nat) = 9 + 1 := rfl
      rw [h10, runLoop_succ_task]
      simp [hcont, hstate]
    · rw [show initTask.currentStep + 1 = 1 from rfl, henv] at ha; cases ha
    · rw [show initTask.currentStep + 1 = 1 from rfl, henv] at ha; cases ha
    · rw [show initTask.currentStep + 1 = 1 from rfl, henv] at ha; cases ha

/-- Witness for the amended C6: a DONE reply wrapped in prose parses to
null, and a run whose reasoner immediately returns null ends COMPLETED. -/
theorem C6_parseAction_amended_witness :
    parseActionFromResponse doneReply = none ∧
    (finalTask envDone).state = TaskState.completed := by
  have h := C6_parseAction_amended doneReply
  exact ⟨h.2.2.1 doneReplyExtract doneReplyJson rfl rfl rfl, h.2.2.2 envDone rfl⟩

/-- C7: no run performs more than `maxSteps` = 10 reasoning iterations;
the reasoning step events carry exactly the consecutive step numbers
1, 2, ..., currentStep (strictly increasing by one), and the counter
never exceeds the bound, whatever the reasoner does. -/
theorem C7_step_bound (env : Env) :
    (finalTask env).maxSteps = 10 ∧
    (finalTask env).currentStep ≤ (finalTask env).maxSteps ∧
    reasonSteps (eventsOf env) = List.range' 1 (finalTask env).currentStep := by
  obtain ⟨h0, h1, h2⟩ := runLoop_bounds env 10 initTask
  have hms : (runLoop env 10 initTask).task.maxSteps = 10 := by rw [h2]; rfl
  have hrs := runLoop_reasonSteps env 10 initTask
  have hev : eventsOf env = Event.taskStarted ::
      ((runLoop env 10 initTask).events ++
        [Event.taskCompleted ((runLoop env 10 initTask).task.state == TaskState.completed)
          (runLoop env 10 initTask).task.steps.length
          (runLoop env 10 initTask).task.errors]) := rfl
  refine ⟨hms, ?_, ?_⟩
  · show (runLoop env 10 initTask).task.currentStep ≤
      (runLoop env 10 initTask).task.maxSteps
    rw [hms]
    simpa [initTask] using h1
  · show reasonSteps (eventsOf env) =
      List.range' 1 (runLoop env 10 initTask).task.currentStep
    rw [hev]
    have hcons : ∀ l : List Event,
        reasonSteps (Event.taskStarted :: l) = reasonSteps l := by
      intro l; simp [reasonSteps]
    rw [hcons, reasonSteps_append, hrs]
    simp [reasonSteps, initTask]

/-- C8 counterexample: with an approved dangerous final action the state
trace runs PENDING, REASONING, AWAITING_CONFIRMATION, ACTING, OBSERVING,
COMPLETED — the gate fires **between** REASONING and ACTING, so the
claimed pattern (AWAITING_CONFIRMATION between ACTING and OBSERVING) is
violated. -/
theorem C8_counterexample :
    stateTrace envDanger =
      [TaskState.pending, TaskState.reasoning, TaskState.awaitingConfirmation,
       TaskState.acting, TaskState.observing, TaskState.completed] ∧
    ¬ List.Chain' (fun x y => claimedTrans x y = true) (stateTrace envDanger) := by
  have htr : stateTrace envDanger =
      [TaskState.pending, TaskState.reasoning, TaskState.awaitingConfirmation,
       TaskState.acting, TaskState.observing, TaskState.completed] := by decide
  refine ⟨htr, ?_⟩
  rw [htr]
  intro hch
  have h2 := (List.chain'_cons.mp (List.chain'_cons.mp hch).2).1
  exact absurd h2 (by decide)

/-- C8 amended: every state assignment follows the actual pattern
PENDING → REASONING → [AWAITING_CONFIRMATION] → ACTING → OBSERVING,
looping back to REASONING; REASONING may end the task as COMPLETED
(reasoner done), AWAITING_CONFIRMATION as FAILED (denial), OBSERVING as
COMPLETED (final action); and a run that exhausts `maxSteps` simply stops
with the task left in OBSERVING — no transition outside `allowedTrans`
ever occurs. -/
theorem C8_stateTrace_amended (env : Env) :
    (stateTrace env).head? = some TaskState.pending ∧
    List.Chain' (fun x y => allowedTrans x y = true) (stateTrace env) ∧
    ((finalTask env).state = TaskState.completed ∨
     (finalTask env).state = TaskState.failed ∨
     (finalTask env).state = TaskState.observing) := by
  refine ⟨rfl, ?_, ?_⟩
  · exact runLoop_chain env 10 initTask TaskState.pending (by decide)
  · exact runLoop_state_term env 10 initTask (by omega)

/-- C9 counterexample: cancelling an active task records the error string
"Task cancelled by user", not "cancelled" as the claim states. -/
theorem C9_counterexample :
    (cancelTask demoRegistry "session-1").returned = true ∧
    ((cancelTask demoRegistry "session-1").cancelled.map TaskRec.errors) =
      some ["Task cancelled by user"] ∧
    ((cancelTask demoRegistry "session-1").cancelled.map TaskRec.errors) ≠
      some ["cancelled"] := by
  decide

/-- C9 amended: `cancelTask` returns false (and changes nothing) when the
session has no active task; when one exists it marks it FAILED with error
"Task cancelled by user", removes the registry entry, and returns
true. -/
theorem C9_cancelTask_amended (reg : String → Option TaskRec) (sid : String) :
    (reg sid = none → cancelTask reg sid =
      { registry := reg, returned := false, cancelled := none }) ∧
    (∀ t, reg sid = some t →
      (cancelTask reg sid).returned = true ∧
      (cancelTask reg sid).registry sid = none ∧
      (cancelTask reg sid).cancelled =
        some { t with state := TaskState.failed,
                      errors := t.errors ++ ["Task cancelled by user"] }) := by
  constructor
  · intro h
    simp [cancelTask, h]
  · intro t h
    refine ⟨?_, ?_, ?_⟩ <;> simp [cancelTask, h]

/-- Witness for the amended C9 on both branches of the concrete
registry. -/
theorem C9_cancelTask_amended_witness :
    cancelTask demoRegistry "absent" =
      { registry := demoRegistry, returned := false, cancelled := none } ∧
    (cancelTask demoRegistry "session-1").returned = true ∧
    (cancelTask demoRegistry "session-1").registry "session-1" = none := by
  have h1 := (C9_cancelTask_amended demoRegistry "absent").1 (by decide)
  have h2 := (C9_cancelTask_amended demoRegistry "session-1").2 initTask (by decide)
  exact ⟨h1, h2.1, h2.2.1⟩

/-- C10: every exception-free run emits exactly one `task:completed`
(as its last event, with success exactly when the final state is
COMPLETED — hence success = false for rejections and step-limit
exhaustion) and never emits `task:failed`; `task:failed` is reserved for
the catch branch, which only an external throw can reach. -/
theorem C10_completion_reporting (env : Env) :
    (eventsOf env).countP isCompletedEv = 1 ∧
    (eventsOf env).countP isFailedEv = 0 ∧
    (eventsOf env).getLast? =
      some (Event.taskCompleted ((finalTask env).state == TaskState.completed)
        (finalTask env).steps.length (finalTask env).errors) := by
  obtain ⟨h1, h2⟩ := runLoop_no_terminal env 10 initTask
  have hev : eventsOf env = Event.taskStarted ::
      ((runLoop env 10 initTask).events ++
        [Event.taskCompleted ((runLoop env 10 initTask).task.state == TaskState.completed)
          (runLoop env 10 initTask).task.steps.length
          (runLoop env 10 initTask).task.errors]) := rfl
  refine ⟨?_, ?_, ?_⟩
  · rw [hev]
    simp [List.countP_cons, List.countP_append, h1, isCompletedEv, isFailedEv]
  · rw [hev]
    simp [List.countP_cons, List.countP_append, h2, isFailedEv]
  · rw [hev, ← List.cons_append, getLastAppend]
    rfl

end IrisModel
